import Mathlib

/-!
Verification of the stock-analysis pipeline (data fetching, metric
derivation, scoring, ranking) against its natural-language specification.

The Python sources are shallowly embedded:

* Python scalar values stored in the per-symbol dictionaries become `PyVal`
  (a rational number, a string, or `null` for Python's `None`); a Python
  `dict` of scalars becomes an association list `Dict`.
* `dict.get(key, default)` becomes `dget`; subscription `d[key]` becomes
  `pyIndex`, failing (KeyError) when the key is absent.
* Code that can raise becomes `Except Unit`/`Except String` computations:
  `None * 100` raises `TypeError` (modelled by `pyMul100` returning
  `Except.error`), comparing a non-number against a number raises
  (`pyGtNum`/`pyLtNum`), and the `try/except` in `_calculate_metrics`
  catching every exception becomes a `match` on the `Except` result.
* Machine floats are modelled by `ℚ` (the constants involved are exact).
-/

/-- Scalar Python value as stored in the data dictionaries: a number
(floats and ints collapsed into `ℚ`), a string, or `None`. -/
inductive PyVal where
  | num (q : ℚ)
  | str (s : String)
  | null
deriving DecidableEq, Repr

/-- Python dictionary with string keys and scalar values, in insertion
order. -/
abbrev Dict := List (String × PyVal)

/-- Embedding of Python `d.get(k, dflt)`: the stored value when the key is
present (even when that value is `None`), otherwise the default. -/
def dget (d : Dict) (k : String) (dflt : PyVal) : PyVal :=
  match d.lookup k with
  | some v => v
  | none => dflt

/-- Embedding of Python subscription `d[k]`: raises `KeyError` when the key
is absent. -/
def pyIndex (d : Dict) (k : String) : Except Unit PyVal :=
  match d.lookup k with
  | some v => Except.ok v
  | none => Except.error ()

/-- Embedding of Python `v * 100` for a dictionary value: a number is
multiplied, a string is repeated 100 times, and `None * 100` raises
`TypeError`. -/
def pyMul100 : PyVal → Except Unit PyVal
  | PyVal.num q => Except.ok (PyVal.num (q * 100))
  | PyVal.str s => Except.ok (PyVal.str (String.join (List.replicate 100 s)))
  | PyVal.null => Except.error ()

/-- Numeric payload of a `PyVal`, when it is a number. -/
def numVal? : PyVal → Option ℚ
  | PyVal.num q => some q
  | _ => none

/-- Embedding of `np.mean` on a list of scalar values: the arithmetic mean
when all entries are numbers, an error otherwise. -/
def npMean (l : List PyVal) : Except Unit ℚ :=
  match l.mapM numVal? with
  | some qs => Except.ok (qs.sum / qs.length)
  | none => Except.error ()

/-- Aggregate financial record for one symbol, as assembled by
`FinancialDataFetcher.get_stock_data` and consumed by
`StockAnalyzer._calculate_metrics` (src/data_fetch.py, src/analysis.py).
In `_calculate_metrics` an absent sub-record and an empty one are
indistinguishable (`data.get('company_profile', {})`,
`.. if data.get('income_statements') else {}`), so absent collections are
represented by the empty dictionary or list.  The `error` field is `some`
exactly when the Python record carries an `'error'` key. -/
structure StockData where
  error : Option String := none
  company_profile : Dict := []
  income_statements : List Dict := []
  balance_sheets : List Dict := []
  key_metrics : List Dict := []
  ratios : List Dict := []
  growth : List Dict := []
  quote : Dict := []
deriving Repr

/-- First element of a list of dictionaries, or the empty dictionary:
embeds `data.get(k, [{}])[0] if data.get(k) else {}`. -/
def firstOrEmpty : List Dict → Dict
  | [] => []
  | d :: _ => d

/-- Embedding of the 5-year revenue-growth computation of
`StockAnalyzer._calculate_metrics` (src/analysis.py lines 74-79): zero for
fewer than five growth entries; otherwise the `revenueGrowth` values of the
first five entries are collected (absent keys defaulting to 0), explicit
`None` entries are dropped, and the remainder is averaged with `np.mean`
and multiplied by 100 (zero when every entry was `None`). -/
def revenueGrowth5y (growth_data : List Dict) : Except Unit ℚ :=
  if growth_data.length ≥ 5 then
    let growth_rates := (growth_data.take 5).map
      (fun g => dget g "revenueGrowth" (PyVal.num 0))
    let valid_rates := growth_rates.filter
      (fun r => match r with | PyVal.null => false | _ => true)
    if valid_rates.isEmpty then Except.ok 0
    else do
      let m ← npMean valid_rates
      Except.ok (m * 100)
  else Except.ok 0

/-- Embedding of the `try`-block of `StockAnalyzer._calculate_metrics`
(src/analysis.py lines 44-101): extracts the sub-records and builds the
twelve-field metrics dictionary for one symbol.  The three `* 100`
conversions and the growth average can raise, in which case the whole
computation errors (to be caught by the caller). -/
def deriveRecord (symbol : String) (data : StockData) : Except Unit Dict := do
  let profile := data.company_profile
  let income := firstOrEmpty data.income_statements
  let ratios := firstOrEmpty data.ratios
  let growth_data := data.growth
  let quote := data.quote
  let price := dget quote "price" (PyVal.num 0)
  let pe_ratio := dget ratios "priceEarningsRatio" (PyVal.num 0)
  let ps_ratio := dget ratios "priceToSalesRatio" (PyVal.num 0)
  let pb_ratio := dget ratios "priceToBookRatio" (PyVal.num 0)
  let dividend_yield ← pyMul100 (dget ratios "dividendYield" (PyVal.num 0))
  let eps := dget income "eps" (PyVal.num 0)
  let revenue_growth_5y ← revenueGrowth5y growth_data
  let roe ← pyMul100 (dget ratios "returnOnEquity" (PyVal.num 0))
  let debt_ratio ← pyMul100 (dget ratios "debtRatio" (PyVal.num 0))
  Except.ok
    [("name", dget profile "companyName" (PyVal.str symbol)),
     ("sector", dget profile "sector" (PyVal.str "N/A")),
     ("price", price),
     ("pe_ratio", pe_ratio),
     ("ps_ratio", ps_ratio),
     ("pb_ratio", pb_ratio),
     ("dividend_yield", dividend_yield),
     ("eps", eps),
     ("revenue_growth_5y", PyVal.num revenue_growth_5y),
     ("roe", roe),
     ("debt_ratio", debt_ratio),
     ("score", PyVal.num 0)]

/-- Per-symbol body of `StockAnalyzer._calculate_metrics`: a record
carrying an `'error'` key is skipped before the `try`-block, and any
exception inside the block is caught and turns into a skip (`continue`). -/
def calcMetricsOne (symbol : String) (data : StockData) : Option Dict :=
  if data.error.isSome then none
  else
    match deriveRecord symbol data with
    | Except.ok r => some r
    | Except.error _ => none

/-- Embedding of `StockAnalyzer._calculate_metrics`: iterates over the
input mapping in order and keeps the symbols that were not skipped. -/
def calculateMetrics (stocks : List (String × StockData)) :
    List (String × Dict) :=
  stocks.filterMap (fun p => (calcMetricsOne p.1 p.2).map (fun r => (p.1, r)))

/-- Python comparison `v > c` against a numeric literal: raises `TypeError`
unless `v` is a number. -/
def pyGtNum (v : PyVal) (c : ℚ) : Except Unit Bool :=
  match v with
  | PyVal.num q => Except.ok (decide (c < q))
  | _ => Except.error ()

/-- Python comparison `v < c` against a numeric literal: raises `TypeError`
unless `v` is a number. -/
def pyLtNum (v : PyVal) (c : ℚ) : Except Unit Bool :=
  match v with
  | PyVal.num q => Except.ok (decide (q < c))
  | _ => Except.error ()

/-- Per-record body of `StockAnalyzer._calculate_scores` (src/analysis.py
lines 111-128): the four threshold rules, evaluated with Python dictionary
subscription and comparison semantics (short-circuiting `and`). -/
def scoreOfRecord (metrics : Dict) : Except Unit ℤ := do
  let pe ← pyIndex metrics "pe_ratio"
  let peGt ← pyGtNum pe 0
  let peCond ← if peGt then
      do
        let pe2 ← pyIndex metrics "pe_ratio"
        pyLtNum pe2 15
    else Except.ok false
  let s1 : ℤ := if peCond then 3 else 0
  let dv ← pyIndex metrics "dividend_yield"
  let dvCond ← pyGtNum dv 3
  let s2 : ℤ := if dvCond then 2 else 0
  let gr ← pyIndex metrics "revenue_growth_5y"
  let grCond ← pyGtNum gr 10
  let s3 : ℤ := if grCond then 3 else 0
  let dr ← pyIndex metrics "debt_ratio"
  let drCond ← pyLtNum dr 40
  let s4 : ℤ := if drCond then 2 else 0
  Except.ok (s1 + s2 + s3 + s4)

/-- Python dictionary assignment `d[k] = v`: replaces the value in place
when the key exists (keeping its position), otherwise appends. -/
def rset (d : Dict) (k : String) (v : PyVal) : Dict :=
  match d with
  | [] => [(k, v)]
  | (k', v') :: rest => if k' = k then (k, v) :: rest else (k', v') :: rset rest k v

/-- Embedding of `StockAnalyzer._calculate_scores`: stores each record's
score under its `'score'` key; an exception while scoring any record
propagates (it is not caught). -/
def calculateScores : List (String × Dict) → Except Unit (List (String × Dict))
  | [] => Except.ok []
  | p :: rest => do
    let s ← scoreOfRecord p.2
    let scoredRest ← calculateScores rest
    Except.ok ((p.1, rset p.2 "score" (PyVal.num (s : ℚ))) :: scoredRest)

/-- Embedding of `StockAnalyzer.analyze`: metric derivation followed by
scoring. -/
def analyzeStocks (stocks : List (String × StockData)) :
    Except Unit (List (String × Dict)) :=
  calculateScores (calculateMetrics stocks)

/-- Score stored in a metrics record, read as a number (`0` for anything
else); this is the sort key used by `get_top_stocks`. -/
def scoreVal (d : Dict) : ℚ :=
  match d.lookup "score" with
  | some (PyVal.num q) => q
  | _ => 0

/-- Boolean ascending comparison on the score column. -/
def scoreLe (a b : String × Dict) : Bool :=
  decide (scoreVal a.2 ≤ scoreVal b.2)

/-- Insertion of a row into a list sorted ascending by score, before the
first row it compares `≤` to. -/
def ordInsert (x : String × Dict) : List (String × Dict) → List (String × Dict)
  | [] => [x]
  | y :: ys => if scoreLe x y then x :: y :: ys else y :: ordInsert x ys

/-- Stable ascending sort of the rows by score (insertion sort). -/
def sortAsc : List (String × Dict) → List (String × Dict)
  | [] => []
  | x :: xs => ordInsert x (sortAsc xs)

/-- Descending sort of the rows of a frame whose score column exists.
Pandas implements a descending sort by reversing the rows, arg-sorting
ascending, and reversing the result.  The underlying numpy `argsort` is
modelled by a stable ascending sort; numpy's default `kind='quicksort'`
does not promise a tie order, so this fixes one admissible refinement of
the library call. -/
def sortRowsDesc (l : List (String × Dict)) : List (String × Dict) :=
  (sortAsc l.reverse).reverse

/-- The `'score'` column of the DataFrame built by
`pd.DataFrame.from_dict(results, orient='index')` is missing exactly when
no row carries a `'score'` key — in particular on an empty results
mapping, where `from_dict` yields a DataFrame with no columns at all. -/
def scoreColumnMissing (l : List (String × Dict)) : Bool :=
  l.all (fun p => !(p.2.map Prod.fst).contains "score")

/-- Embedding of `df.sort_values(by='score', ascending=False)` on the
results mapping (rows in insertion order).  When the frame has no
`'score'` column — an empty results mapping, or one where no record has
the key — the real call raises `KeyError: 'score'`, modelled by
`Except.error`.  (Every record the pipeline produces carries the key, so
for pipeline outputs only the empty mapping errors.  A frame where some
but not all rows have the key would place the NaN rows last in pandas;
that mixed case never arises from the pipeline and is sorted here with
score 0 for the missing rows.) -/
def sortValuesScoreDesc (l : List (String × Dict)) :
    Except Unit (List (String × Dict)) :=
  if scoreColumnMissing l then Except.error ()
  else Except.ok (sortRowsDesc l)

/-- Embedding of pandas `DataFrame.head(n)`, which is `iloc[:n]` with
Python slice semantics: the first `n` rows for `n ≥ 0`, and all but the
last `|n|` rows for negative `n`. -/
def pdHead {α : Type} (l : List α) (n : ℤ) : List α :=
  if 0 ≤ n then l.take n.toNat else l.take (l.length - (-n).toNat)

/-- Embedding of `StockAnalyzer.get_top_stocks` (src/analysis.py lines
144-161): sort the scored records by score descending (raising `KeyError`
when the score column is missing, notably on an empty results mapping),
then take the head. -/
def getTopStocks (results : List (String × Dict)) (topN : ℤ) :
    Except Unit (List (String × Dict)) := do
  let sorted ← sortValuesScoreDesc results
  Except.ok (pdHead sorted topN)

/-- Scalar JSON-ish value appearing in a fetched per-symbol record: a
string, a single dictionary, or a list of dictionaries. -/
inductive JVal where
  | jstr (s : String)
  | jdict (d : Dict)
  | jlist (l : List Dict)
deriving DecidableEq, Repr

/-- Per-symbol record returned by `get_stock_data`. -/
abbrev FetchRecord := List (String × JVal)

/-- Outcome of one API call of `_make_api_request`: either the decoded
response or the message of the `RequestException` raised for that attempt.
-/
abbrev ApiOutcome (α : Type) := Except String α

/-- Result of `_make_api_request`: the decoded response on success, the
terminal `Exception` message after exhausting retries, or Python's implicit
`None` when the loop body never runs (`max_retries = 0`). -/
inductive ApiResult (α : Type) where
  | success (a : α)
  | failure (msg : String)
  | nothing
deriving DecidableEq, Repr

/-- Retry loop of `FinancialDataFetcher._make_api_request`
(src/data_fetch.py lines 55-69), modelled over an environment `attempts`
giving each attempt's outcome.  `remaining` counts the loop iterations
still to run (the current attempt index is `maxRetries - remaining`).
Returns the result, the number of attempts issued, and the list of sleep
durations performed (each equal to the fixed `delay`). -/
def apiLoop {α : Type} (attempts : ℕ → ApiOutcome α) (delay maxRetries : ℕ) :
    ℕ → ApiResult α × ℕ × List ℕ
  | 0 => (ApiResult.nothing, 0, [])
  | r + 1 =>
    let attempt := maxRetries - (r + 1)
    match attempts attempt with
    | Except.ok a => (ApiResult.success a, 1, [])
    | Except.error e =>
      if attempt < maxRetries - 1 then
        let rest := apiLoop attempts delay maxRetries r
        (rest.1, rest.2.1 + 1, delay :: rest.2.2)
      else
        (ApiResult.failure ("API-Anfrage fehlgeschlagen: " ++ e), 1, [])

/-- Embedding of `FinancialDataFetcher._make_api_request`: run the retry
loop over all `maxRetries` attempts. -/
def makeApiRequest {α : Type} (maxRetries delay : ℕ)
    (attempts : ℕ → ApiOutcome α) : ApiResult α × ℕ × List ℕ :=
  apiLoop attempts delay maxRetries maxRetries

/-- Default `max_retries` of `FinancialDataFetcher.__init__`. -/
def defaultMaxRetries : ℕ := 3

/-- Default `retry_delay` of `FinancialDataFetcher.__init__`. -/
def defaultRetryDelay : ℕ := 2

/-- Environment for one symbol's fetch: the outcome of each of the seven
sequential sub-requests of `get_stock_data`, in source order (profile,
income statement, balance sheet, key metrics, ratios, growth, quote); each
is either the decoded JSON array or the terminal error message raised by
`_make_api_request` for that sub-request. -/
abbrev SubRequests := Fin 7 → Except String (List Dict)

/-- Error record `{'symbol': .., 'error': ..}` returned when a sub-request
raises. -/
def errRecord (symbol e : String) : FetchRecord :=
  [("symbol", JVal.jstr symbol), ("error", JVal.jstr e)]

/-- Embedding of `FinancialDataFetcher.get_stock_data` (src/data_fetch.py
lines 221-262): issue the seven sub-requests in order; on the first raised
error, abandon the symbol and return the `{symbol, error}` record.  Also
returns how many sub-requests were issued. -/
def getStockData (symbol : String) (sub : SubRequests) : FetchRecord × ℕ :=
  match sub 0 with
  | Except.error e => (errRecord symbol e, 1)
  | Except.ok profileRaw =>
  match sub 1 with
  | Except.error e => (errRecord symbol e, 2)
  | Except.ok income_statements =>
  match sub 2 with
  | Except.error e => (errRecord symbol e, 3)
  | Except.ok balance_sheets =>
  match sub 3 with
  | Except.error e => (errRecord symbol e, 4)
  | Except.ok key_metrics =>
  match sub 4 with
  | Except.error e => (errRecord symbol e, 5)
  | Except.ok ratios =>
  match sub 5 with
  | Except.error e => (errRecord symbol e, 6)
  | Except.ok growth =>
  match sub 6 with
  | Except.error e => (errRecord symbol e, 7)
  | Except.ok quoteRaw =>
    ([("symbol", JVal.jstr symbol),
      ("company_profile", JVal.jdict (firstOrEmpty profileRaw)),
      ("income_statements", JVal.jlist income_statements),
      ("balance_sheets", JVal.jlist balance_sheets),
      ("key_metrics", JVal.jlist key_metrics),
      ("ratios", JVal.jlist ratios),
      ("growth", JVal.jlist growth),
      ("quote", JVal.jdict (firstOrEmpty quoteRaw))], 7)

/-- Embedding of `FinancialDataFetcher.get_stocks_data` (src/data_fetch.py
lines 264-283): fetch every symbol sequentially, recording each symbol's
outcome in the output mapping.  The environment assigns to each symbol its
own sub-request outcomes. -/
def getStocksData (symbols : List String) (env : String → SubRequests) :
    List (String × FetchRecord) :=
  symbols.map (fun s => (s, (getStockData s (env s)).1))

/-- Characterization of the scoring body on a record whose four scored
fields hold numbers: the score is the sum of the four threshold rules. -/
theorem scoreOfRecord_eq (m : Dict) (pe dv g dr : ℚ)
    (hpe : m.lookup "pe_ratio" = some (PyVal.num pe))
    (hdv : m.lookup "dividend_yield" = some (PyVal.num dv))
    (hg : m.lookup "revenue_growth_5y" = some (PyVal.num g))
    (hdr : m.lookup "debt_ratio" = some (PyVal.num dr)) :
    scoreOfRecord m = Except.ok
      ((if 0 < pe ∧ pe < 15 then (3 : ℤ) else 0) + (if 3 < dv then 2 else 0) +
       (if 10 < g then 3 else 0) + (if dr < 40 then 2 else 0)) := by
  unfold scoreOfRecord pyIndex
  rw [hpe, hdv, hg, hdr]
  simp only [pyGtNum, pyLtNum, bind, Except.bind]
  by_cases h1 : 0 < pe <;> by_cases h2 : pe < 15 <;> by_cases h3 : 3 < dv <;>
    by_cases h4 : 10 < g <;> by_cases h5 : dr < 40 <;>
      simp [h1, h2, h3, h4, h5]

/-- C1: for every metrics record whose scored fields are numbers (as the
DerivedMetrics data model prescribes), the score is exactly the sum of the
four independent additive rules — +3 for 0 < P/E < 15, +2 for dividend
yield > 3, +3 for 5-year revenue growth > 10, +2 for debt ratio < 40, all
thresholds strict — and no other field of the record affects the score. -/
theorem score_is_sum_of_four_independent_rules :
    (∀ (m : Dict) (pe dv g dr : ℚ),
       m.lookup "pe_ratio" = some (PyVal.num pe) →
       m.lookup "dividend_yield" = some (PyVal.num dv) →
       m.lookup "revenue_growth_5y" = some (PyVal.num g) →
       m.lookup "debt_ratio" = some (PyVal.num dr) →
       scoreOfRecord m = Except.ok
         ((if 0 < pe ∧ pe < 15 then (3 : ℤ) else 0) +
          (if 3 < dv then 2 else 0) +
          (if 10 < g then 3 else 0) +
          (if dr < 40 then 2 else 0))) ∧
    (∀ (m₁ m₂ : Dict) (pe dv g dr : ℚ),
       m₁.lookup "pe_ratio" = some (PyVal.num pe) →
       m₁.lookup "dividend_yield" = some (PyVal.num dv) →
       m₁.lookup "revenue_growth_5y" = some (PyVal.num g) →
       m₁.lookup "debt_ratio" = some (PyVal.num dr) →
       m₂.lookup "pe_ratio" = some (PyVal.num pe) →
       m₂.lookup "dividend_yield" = some (PyVal.num dv) →
       m₂.lookup "revenue_growth_5y" = some (PyVal.num g) →
       m₂.lookup "debt_ratio" = some (PyVal.num dr) →
       scoreOfRecord m₁ = scoreOfRecord m₂) := by
  refine ⟨fun m pe dv g dr h1 h2 h3 h4 => scoreOfRecord_eq m pe dv g dr h1 h2 h3 h4, ?_⟩
  intro m₁ m₂ pe dv g dr h1 h2 h3 h4 h5 h6 h7 h8
  rw [scoreOfRecord_eq m₁ pe dv g dr h1 h2 h3 h4,
    scoreOfRecord_eq m₂ pe dv g dr h5 h6 h7 h8]

/-- Witness for C1: the spec's end-to-end example — metrics with P/E 12,
dividend yield 4 %, revenue growth 12 %, debt ratio 30 % score
3 + 2 + 3 + 2 = 10. -/
theorem score_is_sum_of_four_independent_rules_witness :
    scoreOfRecord
      [("pe_ratio", PyVal.num 12), ("dividend_yield", PyVal.num 4),
       ("revenue_growth_5y", PyVal.num 12), ("debt_ratio", PyVal.num 30)] =
      Except.ok 10 := by
  have h := score_is_sum_of_four_independent_rules.1
    [("pe_ratio", PyVal.num 12), ("dividend_yield", PyVal.num 4),
     ("revenue_growth_5y", PyVal.num 12), ("debt_ratio", PyVal.num 30)]
    12 4 12 30 rfl rfl rfl rfl
  norm_num at h
  exact h

/-- C8: on every metrics record whose scored fields are numbers (defaulted
or real), scoring succeeds (never raises) with an integer score in [0, 10],
and both bounds are attained by concrete records. -/
theorem score_always_integer_in_zero_ten :
    (∀ (m : Dict) (pe dv g dr : ℚ),
       m.lookup "pe_ratio" = some (PyVal.num pe) →
       m.lookup "dividend_yield" = some (PyVal.num dv) →
       m.lookup "revenue_growth_5y" = some (PyVal.num g) →
       m.lookup "debt_ratio" = some (PyVal.num dr) →
       ∃ s : ℤ, scoreOfRecord m = Except.ok s ∧ 0 ≤ s ∧ s ≤ 10) ∧
    (scoreOfRecord
      [("pe_ratio", PyVal.num 10), ("dividend_yield", PyVal.num 5),
       ("revenue_growth_5y", PyVal.num 20), ("debt_ratio", PyVal.num 10)] =
      Except.ok 10) ∧
    (scoreOfRecord
      [("pe_ratio", PyVal.num 0), ("dividend_yield", PyVal.num 0),
       ("revenue_growth_5y", PyVal.num 0), ("debt_ratio", PyVal.num 40)] =
      Except.ok 0) := by
  refine ⟨?_, by rfl, by rfl⟩
  intro m pe dv g dr h1 h2 h3 h4
  refine ⟨_, scoreOfRecord_eq m pe dv g dr h1 h2 h3 h4, ?_, ?_⟩ <;>
    split_ifs <;> norm_num

/-- Witness for C8: the bound statement instantiated on the all-defaults
record (every field 0), whose score is 2 (only the debt rule fires). -/
theorem score_always_integer_in_zero_ten_witness :
    ∃ s : ℤ,
      scoreOfRecord
        [("pe_ratio", PyVal.num 0), ("dividend_yield", PyVal.num 0),
         ("revenue_growth_5y", PyVal.num 0), ("debt_ratio", PyVal.num 0)] =
        Except.ok s ∧ 0 ≤ s ∧ s ≤ 10 :=
  score_always_integer_in_zero_ten.1
    [("pe_ratio", PyVal.num 0), ("dividend_yield", PyVal.num 0),
     ("revenue_growth_5y", PyVal.num 0), ("debt_ratio", PyVal.num 0)]
    0 0 0 0 rfl rfl rfl rfl

/-- Shape of every successfully derived record: the twelve fields in
source order, with the percentage fields produced by the (non-raising runs
of the) `* 100` conversions and the growth average. -/
theorem deriveRecord_eq (symbol : String) (data : StockData) (rec : Dict)
    (h : deriveRecord symbol data = Except.ok rec) :
    ∃ dv g roe dr,
      pyMul100 (dget (firstOrEmpty data.ratios) "dividendYield" (PyVal.num 0)) =
        Except.ok dv ∧
      revenueGrowth5y data.growth = Except.ok g ∧
      pyMul100 (dget (firstOrEmpty data.ratios) "returnOnEquity" (PyVal.num 0)) =
        Except.ok roe ∧
      pyMul100 (dget (firstOrEmpty data.ratios) "debtRatio" (PyVal.num 0)) =
        Except.ok dr ∧
      rec =
        [("name", dget data.company_profile "companyName" (PyVal.str symbol)),
         ("sector", dget data.company_profile "sector" (PyVal.str "N/A")),
         ("price", dget data.quote "price" (PyVal.num 0)),
         ("pe_ratio", dget (firstOrEmpty data.ratios) "priceEarningsRatio" (PyVal.num 0)),
         ("ps_ratio", dget (firstOrEmpty data.ratios) "priceToSalesRatio" (PyVal.num 0)),
         ("pb_ratio", dget (firstOrEmpty data.ratios) "priceToBookRatio" (PyVal.num 0)),
         ("dividend_yield", dv),
         ("eps", dget (firstOrEmpty data.income_statements) "eps" (PyVal.num 0)),
         ("revenue_growth_5y", PyVal.num g),
         ("roe", roe),
         ("debt_ratio", dr),
         ("score", PyVal.num 0)] := by
  unfold deriveRecord at h
  simp only [bind, Except.bind] at h
  cases hdv : pyMul100 (dget (firstOrEmpty data.ratios) "dividendYield" (PyVal.num 0)) with
  | error e => rw [hdv] at h; simp [Except.bind] at h
  | ok dv =>
    rw [hdv] at h
    cases hg : revenueGrowth5y data.growth with
    | error e => rw [hg] at h; simp [Except.bind] at h
    | ok g =>
      rw [hg] at h
      cases hroe : pyMul100 (dget (firstOrEmpty data.ratios) "returnOnEquity" (PyVal.num 0)) with
      | error e => rw [hroe] at h; simp [Except.bind] at h
      | ok roe =>
        rw [hroe] at h
        cases hdr : pyMul100 (dget (firstOrEmpty data.ratios) "debtRatio" (PyVal.num 0)) with
        | error e => rw [hdr] at h; simp [Except.bind] at h
        | ok dr =>
          rw [hdr] at h
          simp only [Except.bind, bind] at h
          exact ⟨dv, g, roe, dr, rfl, rfl, rfl, rfl, (Except.ok.inj h).symm⟩

/-- Embedding of `np.mean` applied to a list of numbers gives their
arithmetic mean. -/
theorem npMean_map_num (qs : List ℚ) :
    npMean (qs.map PyVal.num) = Except.ok (qs.sum / qs.length) := by
  unfold npMean
  have h : (qs.map PyVal.num).mapM numVal? = some qs := by
    induction qs with
    | nil => rfl
    | cons q rest ih => rw [List.map_cons, List.mapM_cons, ih]; rfl
  rw [h]

/-- C2: for every record that reaches the results, the stored
`revenue_growth_5y` is the value of the growth computation; that value is 0
whenever the growth history has fewer than 5 entries (whatever they
contain), is the mean of the non-null `revenueGrowth` values of the first 5
entries times 100 when there are at least 5 (0 when all are null), and the
history [0.10, 0.20, null, 0.05, 0.05] yields exactly 10. -/
theorem revenue_growth_five_year_average :
    (∀ sym data rec, calcMetricsOne sym data = some rec →
       ∃ g, revenueGrowth5y data.growth = Except.ok g ∧
         rec.lookup "revenue_growth_5y" = some (PyVal.num g)) ∧
    (∀ growth_data : List Dict, growth_data.length < 5 →
       revenueGrowth5y growth_data = Except.ok 0) ∧
    (∀ (growth_data : List Dict) (qs : List ℚ), 5 ≤ growth_data.length →
       ((growth_data.take 5).map
           (fun g => dget g "revenueGrowth" (PyVal.num 0))).filter
           (fun r => match r with | PyVal.null => false | _ => true) =
         qs.map PyVal.num →
       revenueGrowth5y growth_data =
         Except.ok (if qs = [] then 0 else qs.sum / qs.length * 100)) ∧
    (revenueGrowth5y
        [[("revenueGrowth", PyVal.num (1/10))],
         [("revenueGrowth", PyVal.num (2/10))],
         [("revenueGrowth", PyVal.null)],
         [("revenueGrowth", PyVal.num (5/100))],
         [("revenueGrowth", PyVal.num (5/100))]] = Except.ok 10) := by
  refine ⟨?_, ?_, ?_, by with_unfolding_all rfl⟩
  · intro sym data rec h
    unfold calcMetricsOne at h
    by_cases he : data.error.isSome
    · simp [he] at h
    · simp only [he, if_false, Bool.false_eq_true] at h
      cases hd : deriveRecord sym data with
      | error e => rw [hd] at h; exact absurd h (by simp)
      | ok r =>
        rw [hd] at h
        obtain ⟨dv, g, roe, dr, _, hg, _, _, hrec⟩ := deriveRecord_eq sym data r hd
        refine ⟨g, hg, ?_⟩
        have : r = rec := by injection h
        rw [← this, hrec]
        simp [List.lookup]
  · intro growth_data hlen
    unfold revenueGrowth5y
    rw [if_neg (by omega)]
  · intro growth_data qs hlen hfilter
    unfold revenueGrowth5y
    rw [if_pos hlen]
    simp only [hfilter]
    cases qs with
    | nil => simp
    | cons q rest =>
      rw [if_neg (by simp [List.isEmpty])]
      simp only [bind, Except.bind, npMean_map_num]
      simp

/-- Witness for C2: a growth history with a single (non-zero) entry always
yields a stored growth metric of 0. -/
theorem revenue_growth_five_year_average_witness :
    revenueGrowth5y [[("revenueGrowth", PyVal.num 9)]] = Except.ok 0 :=
  revenue_growth_five_year_average.2.1 [[("revenueGrowth", PyVal.num 9)]]
    (by norm_num)

/-- C10: an explicit `None` in `dividendYield`, `returnOnEquity` or
`debtRatio` of a present ratios sub-record makes the `* 100` conversion
raise, the exception is caught, and the symbol is skipped (it never enters
the results); whereas a missing ratios sub-record defaults all six
ratio-derived fields to 0. -/
theorem null_ratio_field_causes_skip :
    (∀ (sym : String) (data : StockData) (r : Dict) (rest : List Dict),
       data.error = none → data.ratios = r :: rest →
       (r.lookup "dividendYield" = some PyVal.null ∨
        r.lookup "returnOnEquity" = some PyVal.null ∨
        r.lookup "debtRatio" = some PyVal.null) →
       calcMetricsOne sym data = none ∧ calculateMetrics [(sym, data)] = []) ∧
    (∀ (sym : String) (data : StockData) (rec : Dict),
       data.ratios = [] → calcMetricsOne sym data = some rec →
       rec.lookup "pe_ratio" = some (PyVal.num 0) ∧
       rec.lookup "ps_ratio" = some (PyVal.num 0) ∧
       rec.lookup "pb_ratio" = some (PyVal.num 0) ∧
       rec.lookup "dividend_yield" = some (PyVal.num 0) ∧
       rec.lookup "roe" = some (PyVal.num 0) ∧
       rec.lookup "debt_ratio" = some (PyVal.num 0)) := by
  constructor
  · intro sym data r rest herr hr hnull
    have hfirst : firstOrEmpty data.ratios = r := by rw [hr]; rfl
    have hds : deriveRecord sym data = Except.error () := by
      unfold deriveRecord
      simp only [bind, Except.bind, hfirst]
      rcases hnull with h | h | h
      · have hd : dget r "dividendYield" (PyVal.num 0) = PyVal.null := by
          unfold dget; rw [h]
        rw [hd]; rfl
      · cases hdv : pyMul100 (dget r "dividendYield" (PyVal.num 0)) with
        | error e => rfl
        | ok dv =>
          cases hg : revenueGrowth5y data.growth with
          | error e => rfl
          | ok g =>
            have hd : dget r "returnOnEquity" (PyVal.num 0) = PyVal.null := by
              unfold dget; rw [h]
            rw [hd]; rfl
      · cases hdv : pyMul100 (dget r "dividendYield" (PyVal.num 0)) with
        | error e => rfl
        | ok dv =>
          cases hg : revenueGrowth5y data.growth with
          | error e => rfl
          | ok g =>
            cases hroe : pyMul100 (dget r "returnOnEquity" (PyVal.num 0)) with
            | error e => rfl
            | ok roe =>
              have hd : dget r "debtRatio" (PyVal.num 0) = PyVal.null := by
                unfold dget; rw [h]
              rw [hd]; rfl
    have hone : calcMetricsOne sym data = none := by
      unfold calcMetricsOne
      rw [herr, hds]
      rfl
    exact ⟨hone, by simp [calculateMetrics, hone]⟩
  · intro sym data rec hrat h
    unfold calcMetricsOne at h
    by_cases he : data.error.isSome
    · simp [he] at h
    · simp only [he, if_false, Bool.false_eq_true] at h
      cases hd : deriveRecord sym data with
      | error e => rw [hd] at h; exact absurd h (by simp)
      | ok r =>
        rw [hd] at h
        obtain ⟨dv, g, roe, dr, hdv, hg, hroe, hdr, hrec⟩ :=
          deriveRecord_eq sym data r hd
        have hrr : r = rec := by injection h
        rw [hrat] at hdv hroe hdr hrec
        have hdv0 : dv = PyVal.num 0 := by
          have : pyMul100 (dget (firstOrEmpty []) "dividendYield" (PyVal.num 0)) =
              Except.ok (PyVal.num 0) := by norm_num [dget, pyMul100, firstOrEmpty]
          rw [this] at hdv; exact (Except.ok.inj hdv).symm
        have hroe0 : roe = PyVal.num 0 := by
          have : pyMul100 (dget (firstOrEmpty []) "returnOnEquity" (PyVal.num 0)) =
              Except.ok (PyVal.num 0) := by norm_num [dget, pyMul100, firstOrEmpty]
          rw [this] at hroe; exact (Except.ok.inj hroe).symm
        have hdr0 : dr = PyVal.num 0 := by
          have : pyMul100 (dget (firstOrEmpty []) "debtRatio" (PyVal.num 0)) =
              Except.ok (PyVal.num 0) := by norm_num [dget, pyMul100, firstOrEmpty]
          rw [this] at hdr; exact (Except.ok.inj hdr).symm
        subst hrr hdv0 hroe0 hdr0
        rw [hrec]
        refine ⟨?_, ?_, ?_, ?_, ?_, ?_⟩ <;> simp [List.lookup, dget, firstOrEmpty]

/-- Witness for C10: a ratios sub-record with `dividendYield: None` makes
the symbol disappear from the results. -/
theorem null_ratio_field_causes_skip_witness :
    calcMetricsOne "NUL" { ratios := [[("dividendYield", PyVal.null)]] } = none ∧
    calculateMetrics
      [("NUL", { ratios := [[("dividendYield", PyVal.null)]] })] = [] :=
  null_ratio_field_causes_skip.1 "NUL"
    { ratios := [[("dividendYield", PyVal.null)]] }
    [("dividendYield", PyVal.null)] [] rfl rfl (Or.inl rfl)

/-- The twelve keys of every derived metrics record, in source order. -/
def metricKeys : List String :=
  ["name", "sector", "price", "pe_ratio", "ps_ratio", "pb_ratio",
   "dividend_yield", "eps", "revenue_growth_5y", "roe", "debt_ratio", "score"]

/-- Assigning to an existing key leaves the key list of a record unchanged.
-/
theorem rset_keys (d : Dict) (k : String) (v : PyVal)
    (h : k ∈ d.map Prod.fst) : (rset d k v).map Prod.fst = d.map Prod.fst := by
  induction d with
  | nil => simp at h
  | cons p rest ih =>
    obtain ⟨k', v'⟩ := p
    by_cases hk : k' = k
    · subst hk; simp [rset]
    · simp only [List.map_cons, List.mem_cons] at h
      rcases h with h | h
    
      · exact absurd h.symm hk
      · simp [rset, hk, ih h]

/-- Pointwise characterization of a successful scoring pass: each output
row keeps its symbol and record, with the record's score slot overwritten
by its computed score. -/
theorem calculateScores_shape (results scored : List (String × Dict))
    (h : calculateScores results = Except.ok scored) :
    List.Forall₂
      (fun p q => q.1 = p.1 ∧ ∃ s : ℤ, scoreOfRecord p.2 = Except.ok s ∧
        q.2 = rset p.2 "score" (PyVal.num (s : ℚ))) results scored := by
  induction results generalizing scored with
  | nil =>
    unfold calculateScores at h
    cases h
    exact List.Forall₂.nil
  | cons p rest ih =>
    unfold calculateScores at h
    simp only [bind, Except.bind] at h
    cases hs : scoreOfRecord p.2 with
    | error e => rw [hs] at h; exact absurd h (by simp)
    | ok s =>
      rw [hs] at h
      cases hr : calculateScores rest with
      | error e => rw [hr] at h; exact absurd h (by simp)
      | ok scoredRest =>
        rw [hr] at h
        cases h
        exact List.Forall₂.cons ⟨rfl, s, hs, rfl⟩ (ih scoredRest hr)

/-- Elements of the right list of a `Forall₂` have a related witness on the
left. -/
theorem f2_mem_right {α β : Type} {R : α → β → Prop} {l₁ : List α}
    {l₂ : List β} (h : List.Forall₂ R l₁ l₂) {b : β} (hb : b ∈ l₂) :
    ∃ a ∈ l₁, R a b := by
  induction h with
  | nil => simp at hb
  | cons hr _ ih =>
    rcases List.mem_cons.1 hb with hb | hb
    · subst hb; exact ⟨_, List.mem_cons_self _ _, hr⟩
    · obtain ⟨a, ha, har⟩ := ih hb
      exact ⟨a, List.mem_cons_of_mem _ ha, har⟩

/-- Every row of the derived results comes from an input entry with the
same symbol whose derivation succeeded. -/
theorem mem_calculateMetrics {stocks : List (String × StockData)}
    {p : String × Dict} (h : p ∈ calculateMetrics stocks) :
    ∃ d, (p.1, d) ∈ stocks ∧ calcMetricsOne p.1 d = some p.2 := by
  simp only [calculateMetrics, List.mem_filterMap] at h
  obtain ⟨⟨s, d⟩, hmem, hp⟩ := h
  cases hcm : calcMetricsOne s d with
  | none => rw [hcm] at hp; simp at hp
  | some r =>
    rw [hcm] at hp
    have hp' : (s, r) = p := by simpa using hp
    subst hp'
    exact ⟨d, hmem, hcm⟩

/-- Splitting of a successful per-symbol derivation: the record has no
error key and the `try`-block succeeded. -/
theorem calcMetricsOne_some {sym : String} {data : StockData} {rec : Dict}
    (h : calcMetricsOne sym data = some rec) :
    data.error = none ∧ deriveRecord sym data = Except.ok rec := by
  unfold calcMetricsOne at h
  by_cases he : data.error.isSome
  · simp [he] at h
  · refine ⟨Option.not_isSome_iff_eq_none.1 he, ?_⟩
    simp only [he, if_false, Bool.false_eq_true] at h
    cases hd : deriveRecord sym data with
    | error e => rw [hd] at h; simp at h
    | ok r => rw [hd] at h; cases h; rfl

/-- C9: every record that reaches scoring carries exactly the twelve
metric keys in source order; absent sub-records or fields become the
documented defaults (numeric 0, name falling back to the symbol, sector to
"N/A"), never a missing key; and the key set survives scoring unchanged. -/
theorem derived_record_key_set_total :
    (∀ (sym : String) (data : StockData) (rec : Dict),
       calcMetricsOne sym data = some rec →
       rec.map Prod.fst = metricKeys ∧
       (data.company_profile.lookup "companyName" = none →
         rec.lookup "name" = some (PyVal.str sym)) ∧
       (data.company_profile.lookup "sector" = none →
         rec.lookup "sector" = some (PyVal.str "N/A")) ∧
       (data.quote.lookup "price" = none →
         rec.lookup "price" = some (PyVal.num 0)) ∧
       (data.income_statements = [] →
         rec.lookup "eps" = some (PyVal.num 0)) ∧
       (data.ratios = [] →
         rec.lookup "pe_ratio" = some (PyVal.num 0) ∧
         rec.lookup "ps_ratio" = some (PyVal.num 0) ∧
         rec.lookup "pb_ratio" = some (PyVal.num 0) ∧
         rec.lookup "dividend_yield" = some (PyVal.num 0) ∧
         rec.lookup "roe" = some (PyVal.num 0) ∧
         rec.lookup "debt_ratio" = some (PyVal.num 0))) ∧
    (∀ (stocks : List (String × StockData)) (scored : List (String × Dict)),
       analyzeStocks stocks = Except.ok scored →
       ∀ p ∈ scored, p.2.map Prod.fst = metricKeys) := by
  have hA : ∀ (sym : String) (data : StockData) (rec : Dict),
      calcMetricsOne sym data = some rec →
      rec.map Prod.fst = metricKeys ∧
      (data.company_profile.lookup "companyName" = none →
        rec.lookup "name" = some (PyVal.str sym)) ∧
      (data.company_profile.lookup "sector" = none →
        rec.lookup "sector" = some (PyVal.str "N/A")) ∧
      (data.quote.lookup "price" = none →
        rec.lookup "price" = some (PyVal.num 0)) ∧
      (data.income_statements = [] →
        rec.lookup "eps" = some (PyVal.num 0)) ∧
      (data.ratios = [] →
        rec.lookup "pe_ratio" = some (PyVal.num 0) ∧
        rec.lookup "ps_ratio" = some (PyVal.num 0) ∧
        rec.lookup "pb_ratio" = some (PyVal.num 0) ∧
        rec.lookup "dividend_yield" = some (PyVal.num 0) ∧
        rec.lookup "roe" = some (PyVal.num 0) ∧
        rec.lookup "debt_ratio" = some (PyVal.num 0)) := by
    intro sym data rec h
    obtain ⟨herr, hd⟩ := calcMetricsOne_some h
    obtain ⟨dv, g, roe, dr, hdv, hg, hroe, hdr, hrec⟩ :=
      deriveRecord_eq sym data rec hd
    subst hrec
    refine ⟨rfl, ?_, ?_, ?_, ?_, ?_⟩
    · intro hn; simp [List.lookup, dget, hn]
    · intro hn; simp [List.lookup, dget, hn]
    · intro hn; simp [List.lookup, dget, hn]
    · intro hn; simp [List.lookup, dget, hn, firstOrEmpty]
    · intro hrat
      rw [hrat] at hdv hroe hdr
      have hdv0 : dv = PyVal.num 0 := by
        have he : pyMul100 (dget (firstOrEmpty []) "dividendYield" (PyVal.num 0)) =
            Except.ok (PyVal.num 0) := by norm_num [dget, pyMul100, firstOrEmpty]
        rw [he] at hdv; exact (Except.ok.inj hdv).symm
      have hroe0 : roe = PyVal.num 0 := by
        have he : pyMul100 (dget (firstOrEmpty []) "returnOnEquity" (PyVal.num 0)) =
            Except.ok (PyVal.num 0) := by norm_num [dget, pyMul100, firstOrEmpty]
        rw [he] at hroe; exact (Except.ok.inj hroe).symm
      have hdr0 : dr = PyVal.num 0 := by
        have he : pyMul100 (dget (firstOrEmpty []) "debtRatio" (PyVal.num 0)) =
            Except.ok (PyVal.num 0) := by norm_num [dget, pyMul100, firstOrEmpty]
        rw [he] at hdr; exact (Except.ok.inj hdr).symm
      subst hdv0 hroe0 hdr0
      refine ⟨?_, ?_, ?_, ?_, ?_, ?_⟩ <;>
        simp [List.lookup, dget, hrat, firstOrEmpty]
  refine ⟨hA, ?_⟩
  intro stocks scored h p hp
  unfold analyzeStocks at h
  have hshape := calculateScores_shape _ _ h
  obtain ⟨q, hq, _, s, _, hq2⟩ := f2_mem_right hshape hp
  obtain ⟨d, _, hd2⟩ := mem_calculateMetrics hq
  have hkeys : q.2.map Prod.fst = metricKeys := (hA q.1 d q.2 hd2).1
  rw [hq2, rset_keys q.2 "score" _ (by rw [hkeys]; simp [metricKeys])]
  exact hkeys

/-- Witness for C9: the fully-defaulted symbol (no sub-records at all)
yields the total record with every documented default. -/
theorem derived_record_key_set_total_witness :
    ([("name", PyVal.str "EMP"), ("sector", PyVal.str "N/A"),
      ("price", PyVal.num 0), ("pe_ratio", PyVal.num 0),
      ("ps_ratio", PyVal.num 0), ("pb_ratio", PyVal.num 0),
      ("dividend_yield", PyVal.num 0), ("eps", PyVal.num 0),
      ("revenue_growth_5y", PyVal.num 0), ("roe", PyVal.num 0),
      ("debt_ratio", PyVal.num 0), ("score", PyVal.num 0)] : Dict).map
      Prod.fst = metricKeys :=
  (derived_record_key_set_total.1 "EMP" {}
    [("name", PyVal.str "EMP"), ("sector", PyVal.str "N/A"),
     ("price", PyVal.num 0), ("pe_ratio", PyVal.num 0),
     ("ps_ratio", PyVal.num 0), ("pb_ratio", PyVal.num 0),
     ("dividend_yield", PyVal.num 0), ("eps", PyVal.num 0),
     ("revenue_growth_5y", PyVal.num 0), ("roe", PyVal.num 0),
     ("debt_ratio", PyVal.num 0), ("score", PyVal.num 0)]
    (by with_unfolding_all rfl)).1

/-- Inserting an element is a permutation of consing it. -/
theorem ordInsert_perm (x : String × Dict) (l : List (String × Dict)) :
    (ordInsert x l).Perm (x :: l) := by
  induction l with
  | nil => exact List.Perm.refl _
  | cons y ys ih =>
    unfold ordInsert
    by_cases h : scoreLe x y
    · simp [h]
    · simp only [h, if_false, Bool.false_eq_true]
      exact ((ih.cons y).trans (List.Perm.swap x y ys))

/-- The ascending score sort permutes its input. -/
theorem sortAsc_perm (l : List (String × Dict)) : (sortAsc l).Perm l := by
  induction l with
  | nil => exact List.Perm.refl _
  | cons x xs ih =>
    exact (ordInsert_perm x (sortAsc xs)).trans (ih.cons x)

/-- The descending sort permutes its input. -/
theorem sortRowsDesc_perm (l : List (String × Dict)) :
    (sortRowsDesc l).Perm l := by
  unfold sortRowsDesc
  exact (List.reverse_perm _).trans
    ((sortAsc_perm l.reverse).trans (List.reverse_perm l))

/-- A successful ranking unpacks to sorting followed by `head`. -/
theorem getTopStocks_ok {scored : List (String × Dict)} {n : ℤ}
    {out : List (String × Dict)}
    (hout : getTopStocks scored n = Except.ok out) :
    scoreColumnMissing scored = false ∧ out = pdHead (sortRowsDesc scored) n := by
  unfold getTopStocks sortValuesScoreDesc at hout
  by_cases hcol : scoreColumnMissing scored = true
  · rw [if_pos hcol] at hout
    exact absurd hout (by simp [bind, Except.bind])
  · rw [if_neg hcol] at hout
    simp only [bind, Except.bind] at hout
    exact ⟨Bool.not_eq_true _ ▸ eq_false_of_ne_true hcol,
      (Except.ok.inj hout).symm⟩

/-- Rows of a successfully ranked output are rows of the scored input. -/
theorem mem_getTopStocks {scored : List (String × Dict)} {n : ℤ}
    {out : List (String × Dict)}
    (hout : getTopStocks scored n = Except.ok out)
    {p : String × Dict} (h : p ∈ out) : p ∈ scored := by
  obtain ⟨-, rfl⟩ := getTopStocks_ok hout
  unfold pdHead at h
  have hsub : p ∈ sortRowsDesc scored := by
    by_cases hn : 0 ≤ n
    · rw [if_pos hn] at h
      exact (List.take_sublist _ _).subset h
    · rw [if_neg hn] at h
      exact (List.take_sublist _ _).subset h
  exact (sortRowsDesc_perm scored).subset hsub

/-- In a list with no duplicate keys, a key determines its value. -/
theorem nodup_keys_unique {α β : Type} {l : List (α × β)}
    (h : (l.map Prod.fst).Nodup) {a : α} {b b' : β}
    (h1 : (a, b) ∈ l) (h2 : (a, b') ∈ l) : b = b' := by
  induction l with
  | nil => simp at h1
  | cons p rest ih =>
    obtain ⟨pa, pb⟩ := p
    simp only [List.map_cons, List.nodup_cons] at h
    rcases List.mem_cons.1 h1 with he1 | ht1 <;>
      rcases List.mem_cons.1 h2 with he2 | ht2
    · injection he1 with hA hB
      injection he2 with hA2 hB2
      rw [hB, hB2]
    · injection he1 with hA hB
      subst hA
      exact absurd (List.mem_map_of_mem Prod.fst ht2) h.1
    · injection he2 with hA hB
      subst hA
      exact absurd (List.mem_map_of_mem Prod.fst ht1) h.1
    · exact ih h.2 ht1 ht2

/-- Lists related by the scoring relation have the same symbol column. -/
theorem f2_fst_eq {l₁ l₂ : List (String × Dict)}
    (h : List.Forall₂
      (fun p q => q.1 = p.1 ∧ ∃ s : ℤ, scoreOfRecord p.2 = Except.ok s ∧
        q.2 = rset p.2 "score" (PyVal.num (s : ℚ))) l₁ l₂) :
    l₂.map Prod.fst = l₁.map Prod.fst := by
  induction h with
  | nil => rfl
  | cons hr hrest ih => simp only [List.map_cons, ih, hr.1]

/-- A successful scoring pass keeps the symbol column unchanged. -/
theorem calculateScores_keys (results scored : List (String × Dict))
    (h : calculateScores results = Except.ok scored) :
    scored.map Prod.fst = results.map Prod.fst :=
  f2_fst_eq (calculateScores_shape results scored h)

/-- Dropping the error-carrying records from the input changes nothing
downstream: they are skipped anyway. -/
theorem calculateMetrics_drop_errors (stocks : List (String × StockData)) :
    calculateMetrics stocks =
      calculateMetrics (stocks.filter (fun q => q.2.error.isNone)) := by
  induction stocks with
  | nil => rfl
  | cons p rest ih =>
    cases hval : p.2.error with
    | some e =>
      have hnone : calcMetricsOne p.1 p.2 = none := by
        unfold calcMetricsOne; rw [hval]; rfl
      have hfil : (p :: rest).filter (fun q => q.2.error.isNone) =
          rest.filter (fun q => q.2.error.isNone) := by
        simp [List.filter_cons, hval]
      rw [hfil, ← ih]
      simp [calculateMetrics, List.filterMap_cons, hnone]
    | none =>
      have hfil : (p :: rest).filter (fun q => q.2.error.isNone) =
          p :: rest.filter (fun q => q.2.error.isNone) := by
        simp [List.filter_cons, hval]
      rw [hfil]
      simp only [calculateMetrics, List.filterMap_cons] at ih ⊢
      cases hmo : calcMetricsOne p.1 p.2 <;> simp [hmo, ih]

/-- C7 (amended): records carrying a fetch error are silently dropped —
the symbol is absent from the derived metrics, the scored set and every
successfully ranked output, and sibling symbols are entirely unaffected;
but a batch in which every fetch failed, while it analyzes to an empty
result set without error, makes the ranking step raise
`KeyError: 'score'` (the empty results mapping gives a column-less
DataFrame) instead of yielding an empty ranked sequence. -/
theorem fetch_errors_silently_dropped :
    (∀ stocks : List (String × StockData),
       calculateMetrics stocks =
         calculateMetrics (stocks.filter (fun q => q.2.error.isNone)) ∧
       analyzeStocks stocks =
         analyzeStocks (stocks.filter (fun q => q.2.error.isNone))) ∧
    (∀ (stocks : List (String × StockData)) (s : String) (d : StockData),
       (s, d) ∈ stocks → d.error.isSome → (stocks.map Prod.fst).Nodup →
       s ∉ (calculateMetrics stocks).map Prod.fst ∧
       (∀ scored, analyzeStocks stocks = Except.ok scored →
          s ∉ scored.map Prod.fst ∧
          ∀ (n : ℤ) (out : List (String × Dict)),
            getTopStocks scored n = Except.ok out →
            s ∉ out.map Prod.fst)) ∧
    (∀ stocks : List (String × StockData),
       (∀ p ∈ stocks, p.2.error.isSome) →
       analyzeStocks stocks = Except.ok [] ∧
       (∀ n : ℤ,
          getTopStocks ([] : List (String × Dict)) n = Except.error ())) := by
  refine ⟨?_, ?_, ?_⟩
  · intro stocks
    refine ⟨calculateMetrics_drop_errors stocks, ?_⟩
    unfold analyzeStocks
    rw [calculateMetrics_drop_errors stocks]
  · intro stocks s d hmem herr hnodup
    have hnotin : s ∉ (calculateMetrics stocks).map Prod.fst := by
      intro hin
      obtain ⟨q, hq, hq1⟩ := List.mem_map.1 hin
      obtain ⟨d', hd'1, hd'2⟩ := mem_calculateMetrics hq
      rw [hq1] at hd'1 hd'2
      have : d' = d := nodup_keys_unique hnodup hd'1 hmem
      rw [this] at hd'2
      have hnone : calcMetricsOne s d = none := by
        unfold calcMetricsOne; simp [herr]
      rw [hnone] at hd'2
      exact absurd hd'2 (by simp)
    refine ⟨hnotin, ?_⟩
    intro scored hok
    unfold analyzeStocks at hok
    have hkeys := calculateScores_keys _ _ hok
    have hsc : s ∉ scored.map Prod.fst := by rw [hkeys]; exact hnotin
    refine ⟨hsc, ?_⟩
    intro n out hout hin
    obtain ⟨q, hq, hq1⟩ := List.mem_map.1 hin
    exact hsc (List.mem_map.2 ⟨q, mem_getTopStocks hout hq, hq1⟩)
  · intro stocks hall
    have hfil : stocks.filter (fun q => q.2.error.isNone) = [] := by
      rw [List.filter_eq_nil_iff]
      intro p hp
      have := hall p hp
      cases hv : p.2.error with
      | none => rw [hv] at this; simp at this
      | some e => simp [hv]
    have hm : calculateMetrics stocks = [] := by
      rw [calculateMetrics_drop_errors stocks, hfil]; rfl
    refine ⟨?_, ?_⟩
    · unfold analyzeStocks
      rw [hm]
      rfl
    · intro n
      rfl

/-- Witness for C7: a two-symbol batch where one fetch failed — the failed
symbol vanishes, the sibling is scored and ranked alone. -/
theorem fetch_errors_silently_dropped_witness :
    "BAD" ∉
      (calculateMetrics
        [("BAD", { error := some "boom" }), ("OK", {})]).map Prod.fst := by
  have h := (fetch_errors_silently_dropped.2.1
    [("BAD", { error := some "boom" }), ("OK", {})] "BAD"
    { error := some "boom" } (by simp) (by rfl) (by simp)).1
  exact h

/-- Counterexample for C7 as stated: a batch whose only symbol failed does
analyze to an empty result set without error, but ranking that empty
result set raises `KeyError: 'score'` (the empty results mapping yields a
column-less DataFrame) instead of returning an empty ranked sequence. -/
theorem all_failed_batch_ranking_raises :
    analyzeStocks [("BAD", { error := some "boom" })] = Except.ok [] ∧
    getTopStocks ([] : List (String × Dict)) 10 = Except.error () :=
  ⟨by with_unfolding_all rfl, rfl⟩

/-- Inserting into an ascending list keeps it ascending. -/
theorem pairwise_ordInsert (x : String × Dict) (l : List (String × Dict))
    (h : l.Pairwise (fun a b => scoreVal a.2 ≤ scoreVal b.2)) :
    (ordInsert x l).Pairwise (fun a b => scoreVal a.2 ≤ scoreVal b.2) := by
  induction l with
  | nil => simp [ordInsert]
  | cons y ys ih =>
    unfold ordInsert
    rcases h with _ | ⟨hy, hys⟩
    by_cases hxy : scoreLe x y
    · have hR : scoreVal x.2 ≤ scoreVal y.2 := by
        unfold scoreLe at hxy; exact of_decide_eq_true hxy
      simp only [hxy, if_true]
      refine List.Pairwise.cons ?_ (List.Pairwise.cons hy hys)
      intro z hz
      rcases List.mem_cons.1 hz with hz | hz
      · rw [hz]; exact hR
      · exact le_trans hR (hy z hz)
    · have hyx : scoreVal y.2 ≤ scoreVal x.2 := by
        unfold scoreLe at hxy
        exact le_of_not_le (by simpa using hxy)
      simp only [hxy, if_false, Bool.false_eq_true]
      refine List.Pairwise.cons ?_ (ih hys)
      intro z hz
      have hz' : z ∈ x :: ys := (ordInsert_perm x ys).subset hz
      rcases List.mem_cons.1 hz' with hz' | hz'
      · rw [hz']; exact hyx
      · exact hy z hz'

/-- The ascending sort is ascending. -/
theorem pairwise_sortAsc (l : List (String × Dict)) :
    (sortAsc l).Pairwise (fun a b => scoreVal a.2 ≤ scoreVal b.2) := by
  induction l with
  | nil => exact List.Pairwise.nil
  | cons x xs ih => exact pairwise_ordInsert x (sortAsc xs) ih

/-- The descending sort is descending by score. -/
theorem pairwise_sortRowsDesc (l : List (String × Dict)) :
    (sortRowsDesc l).Pairwise
      (fun a b => scoreVal b.2 ≤ scoreVal a.2) := by
  unfold sortRowsDesc
  exact List.pairwise_reverse.2 (pairwise_sortAsc l.reverse)

/-- The descending sort does not change the number of rows. -/
theorem sortRowsDesc_length (l : List (String × Dict)) :
    (sortRowsDesc l).length = l.length :=
  (sortRowsDesc_perm l).length_eq

/-- C4 (amended): whenever the ranking succeeds, the output has length
min(n, count) for n ≥ 0 — so n = 0 yields an empty sequence and n ≥ count
returns all count symbols, in descending-score order — while for negative
n, `head` keeps all but the last |n| rows (length count − |n|), not an
empty sequence; and on an empty scored collection the ranking raises
`KeyError: 'score'` (column-less DataFrame) for every n instead of
returning a sequence at all. -/
theorem topn_length_and_sorted :
    (∀ (results : List (String × Dict)) (n : ℤ)
       (out : List (String × Dict)),
       getTopStocks results n = Except.ok out →
       (0 ≤ n → out.length = min n.toNat results.length) ∧
       (n < 0 → out.length = results.length - (-n).toNat) ∧
       (0 ≤ n → results.length ≤ n.toNat → out = sortRowsDesc results) ∧
       out.Pairwise (fun a b => scoreVal b.2 ≤ scoreVal a.2)) ∧
    (∀ n : ℤ,
       getTopStocks ([] : List (String × Dict)) n = Except.error ()) := by
  constructor
  · intro results n out hout
    obtain ⟨-, rfl⟩ := getTopStocks_ok hout
    refine ⟨?_, ?_, ?_, ?_⟩
    · intro hn
      unfold pdHead
      rw [if_pos hn, List.length_take, sortRowsDesc_length]
    · intro hn
      unfold pdHead
      rw [if_neg (by omega), List.length_take, sortRowsDesc_length]
      omega
    · intro hn hlen
      unfold pdHead
      rw [if_pos hn]
      exact List.take_of_length_le (by rw [sortRowsDesc_length]; exact hlen)
    · unfold pdHead
      by_cases hn : 0 ≤ n
      · rw [if_pos hn]
        exact List.Pairwise.sublist (List.take_sublist _ _)
          (pairwise_sortRowsDesc results)
      · rw [if_neg hn]
        exact List.Pairwise.sublist (List.take_sublist _ _)
          (pairwise_sortRowsDesc results)
  · intro n
    rfl

/-- Witness for C4 (amended): a singleton input ranked with n = 1 returns
exactly min(1, 1) = 1 row. -/
theorem topn_length_and_sorted_witness :
    ([("A", [("score", PyVal.num 3)])] : List (String × Dict)).length =
      min (Int.toNat 1)
        ([("A", [("score", PyVal.num 3)])] : List (String × Dict)).length :=
  (topn_length_and_sorted.1 [("A", [("score", PyVal.num 3)])] 1
      [("A", [("score", PyVal.num 3)])] (by with_unfolding_all rfl)).1
    (by norm_num)

/-- Counterexample for C4 as stated: with two scored symbols and n = −1
the ranked output is the single best row, not the empty sequence the claim
demands for every n ≤ 0. -/
theorem topn_negative_not_empty :
    getTopStocks
        [("A", [("score", PyVal.num 1)]), ("B", [("score", PyVal.num 1)])]
        (-1) =
      Except.ok [("A", [("score", PyVal.num 1)])] ∧
    getTopStocks
        [("A", [("score", PyVal.num 1)]), ("B", [("score", PyVal.num 1)])]
        (-1) ≠ Except.ok ([] : List (String × Dict)) ∧
    (-1 : ℤ) ≤ 0 := by
  have h1 : getTopStocks
      [("A", [("score", PyVal.num 1)]), ("B", [("score", PyVal.num 1)])]
      (-1) = Except.ok [("A", [("score", PyVal.num 1)])] := by
    with_unfolding_all rfl
  refine ⟨h1, ?_, by norm_num⟩
  rw [h1]
  simp

/-- Retry loop under an everywhere-failing environment: the remaining
iterations are all spent, each separated by one fixed delay, and the final
failure message is the one raised on the last attempt. -/
theorem apiLoop_all_fail {α : Type} (attempts : ℕ → ApiOutcome α)
    (delay maxRetries : ℕ) (msg : ℕ → String)
    (hfail : ∀ i, i < maxRetries → attempts i = Except.error (msg i)) :
    ∀ r, 1 ≤ r → r ≤ maxRetries →
      apiLoop attempts delay maxRetries r =
        (ApiResult.failure ("API-Anfrage fehlgeschlagen: " ++ msg (maxRetries - 1)),
         r, List.replicate (r - 1) delay) := by
  intro r
  induction r with
  | zero => intro h1 _; omega
  | succ r ih =>
    intro _ hle
    unfold apiLoop
    dsimp only
    rw [hfail (maxRetries - (r + 1)) (by omega)]
    by_cases hr : r = 0
    · subst hr
      have hattempt : ¬ (maxRetries - (0 + 1) < maxRetries - 1) := by omega
      simp only [hattempt, if_false]
      have hm : maxRetries - (0 + 1) = maxRetries - 1 := by omega
      rw [hm]
      rfl
    · have hattempt : maxRetries - (r + 1) < maxRetries - 1 := by omega
      simp only [hattempt, if_true]
      rw [ih (by omega) (by omega)]
      have hrep : delay :: List.replicate (r - 1) delay =
          List.replicate (r + 1 - 1) delay := by
        have : r + 1 - 1 = (r - 1) + 1 := by omega
        rw [this, List.replicate_succ]
      simp [hrep]

/-- C5: when every attempt fails with a transport or HTTP-status failure,
the client makes exactly `max_retries` attempts separated by the fixed
delay and then raises a terminal error carrying the last failure's
message; a successful first response — empty or not — is returned
immediately after one attempt with no sleeping. -/
theorem make_api_request_retry_contract {α : Type} (maxRetries delay : ℕ)
    (attempts : ℕ → ApiOutcome α) (msg : ℕ → String)
    (hmr : 1 ≤ maxRetries) :
    ((∀ i, i < maxRetries → attempts i = Except.error (msg i)) →
       makeApiRequest maxRetries delay attempts =
         (ApiResult.failure
            ("API-Anfrage fehlgeschlagen: " ++ msg (maxRetries - 1)),
          maxRetries, List.replicate (maxRetries - 1) delay)) ∧
    (∀ a, attempts 0 = Except.ok a →
       makeApiRequest maxRetries delay attempts = (ApiResult.success a, 1, [])) := by
  constructor
  · intro hfail
    exact apiLoop_all_fail attempts delay maxRetries msg hfail maxRetries hmr
      (le_refl _)
  · intro a ha
    obtain ⟨r, rfl⟩ : ∃ r, maxRetries = r + 1 := ⟨maxRetries - 1, by omega⟩
    unfold makeApiRequest apiLoop
    dsimp only
    rw [Nat.sub_self, ha]

/-- Witness for C5: with the default three retries and two-unit delay, an
environment failing every attempt produces the terminal error built from
the third attempt's message, three issued attempts, and two fixed-length
sleeps; a first-attempt success returns at once. -/
theorem make_api_request_retry_contract_witness :
    makeApiRequest defaultMaxRetries defaultRetryDelay
        (fun i => (Except.error (toString i) : ApiOutcome Unit)) =
      (ApiResult.failure "API-Anfrage fehlgeschlagen: 2", 3, [2, 2]) ∧
    makeApiRequest defaultMaxRetries defaultRetryDelay
        (fun _ => (Except.ok [] : ApiOutcome (List Dict))) =
      (ApiResult.success [], 1, []) := by
  constructor
  · have h := (make_api_request_retry_contract defaultMaxRetries
      defaultRetryDelay (fun i => (Except.error (toString i) : ApiOutcome Unit))
      (fun i => toString i) (by norm_num [defaultMaxRetries])).1
      (fun i _ => rfl)
    simpa [defaultMaxRetries, defaultRetryDelay] using h
  · exact (make_api_request_retry_contract defaultMaxRetries
      defaultRetryDelay (fun _ => (Except.ok [] : ApiOutcome (List Dict)))
      (fun _ => "") (by norm_num [defaultMaxRetries])).2 [] rfl

/-- C6: when a sub-request of one symbol raises a terminal error, that
symbol's fetch stops there (the sub-requests after the failing one are
never issued) and yields a record with exactly the keys symbol and error;
the batch fetcher records an outcome for every symbol and each symbol's
outcome depends only on its own sub-request environment, so one symbol's
failure never alters the others. -/
theorem gateway_error_isolation :
    (∀ (symbol : String) (sub : SubRequests) (k : Fin 7) (e : String),
       sub k = Except.error e →
       (∀ j : Fin 7, j < k → ∃ d, sub j = Except.ok d) →
       (getStockData symbol sub).1 =
         [("symbol", JVal.jstr symbol), ("error", JVal.jstr e)] ∧
       ((getStockData symbol sub).1.map Prod.fst = ["symbol", "error"]) ∧
       (getStockData symbol sub).2 = k.val + 1) ∧
    (∀ (symbols : List String) (env : String → SubRequests) (s : String),
       s ∈ symbols →
       (s, (getStockData s (env s)).1) ∈ getStocksData symbols env) ∧
    (∀ (symbols : List String) (env env' : String → SubRequests)
       (s₀ : String),
       (∀ s, s ≠ s₀ → env s = env' s) →
       ∀ p ∈ getStocksData symbols env, p.1 ≠ s₀ →
         p ∈ getStocksData symbols env') := by
  refine ⟨?_, ?_, ?_⟩
  · intro symbol sub k e hk hok
    have hgs : getStockData symbol sub = (errRecord symbol e, k.val + 1) := by
      fin_cases k
      · simp [getStockData, show sub 0 = Except.error e from hk, errRecord]
      · obtain ⟨d0, h0⟩ := hok 0 (by decide)
        simp [getStockData, h0, show sub 1 = Except.error e from hk, errRecord]
      · obtain ⟨d0, h0⟩ := hok 0 (by decide)
        obtain ⟨d1, h1⟩ := hok 1 (by decide)
        simp [getStockData, h0, h1, show sub 2 = Except.error e from hk, errRecord]
      · obtain ⟨d0, h0⟩ := hok 0 (by decide)
        obtain ⟨d1, h1⟩ := hok 1 (by decide)
        obtain ⟨d2, h2⟩ := hok 2 (by decide)
        simp [getStockData, h0, h1, h2, show sub 3 = Except.error e from hk,
          errRecord]
      · obtain ⟨d0, h0⟩ := hok 0 (by decide)
        obtain ⟨d1, h1⟩ := hok 1 (by decide)
        obtain ⟨d2, h2⟩ := hok 2 (by decide)
        obtain ⟨d3, h3⟩ := hok 3 (by decide)
        simp [getStockData, h0, h1, h2, h3, show sub 4 = Except.error e from hk,
          errRecord]
      · obtain ⟨d0, h0⟩ := hok 0 (by decide)
        obtain ⟨d1, h1⟩ := hok 1 (by decide)
        obtain ⟨d2, h2⟩ := hok 2 (by decide)
        obtain ⟨d3, h3⟩ := hok 3 (by decide)
        obtain ⟨d4, h4⟩ := hok 4 (by decide)
        simp [getStockData, h0, h1, h2, h3, h4,
          show sub 5 = Except.error e from hk, errRecord]
      · obtain ⟨d0, h0⟩ := hok 0 (by decide)
        obtain ⟨d1, h1⟩ := hok 1 (by decide)
        obtain ⟨d2, h2⟩ := hok 2 (by decide)
        obtain ⟨d3, h3⟩ := hok 3 (by decide)
        obtain ⟨d4, h4⟩ := hok 4 (by decide)
        obtain ⟨d5, h5⟩ := hok 5 (by decide)
        simp [getStockData, h0, h1, h2, h3, h4, h5,
          show sub 6 = Except.error e from hk, errRecord]
    rw [hgs]
    exact ⟨rfl, rfl, rfl⟩
  · intro symbols env s hs
    exact List.mem_map.2 ⟨s, hs, rfl⟩
  · intro symbols env env' s₀ henv p hp hps
    obtain ⟨s, hs, hsp⟩ := List.mem_map.1 hp
    have hne : s ≠ s₀ := by rw [← hsp] at hps; exact hps
    rw [← hsp, henv s hne]
    exact List.mem_map.2 ⟨s, hs, rfl⟩

/-- Witness for C6: an environment whose third sub-request (and all later
ones) fail — the fetch returns the two-key error record after issuing
exactly three of the seven sub-requests. -/
theorem gateway_error_isolation_witness :
    (getStockData "X"
        (fun i => if i.val ≥ 2 then Except.error "boom"
                  else Except.ok ([] : List Dict))).1 =
      [("symbol", JVal.jstr "X"), ("error", JVal.jstr "boom")] ∧
    (getStockData "X"
        (fun i => if i.val ≥ 2 then Except.error "boom"
                  else Except.ok ([] : List Dict))).2 = 3 := by
  have h := gateway_error_isolation.1 "X"
    (fun i => if i.val ≥ 2 then Except.error "boom"
              else Except.ok ([] : List Dict)) 2 "boom" rfl
    (by
      intro j hj
      fin_cases j
      · exact ⟨[], rfl⟩
      · exact ⟨[], rfl⟩
      · exact absurd hj (by decide)
      · exact absurd hj (by decide)
      · exact absurd hj (by decide)
      · exact absurd hj (by decide)
      · exact absurd hj (by decide))
  exact ⟨h.1, h.2.2⟩
